import Mathlib

/-
Verification of the run-lifecycle and result-registry layer of the
scheduling-webapp service.

The development shallowly embeds the orchestration code of
`lambda_handler.py`, `solver_worker_ecs.py` and `lambda_worker_handler.py`:

* Python strings are `List Char` (`Str` below); Python string functions used
  by the code (`rstrip`, `startswith`, `replace`, regex prefix match,
  `int()` on digit runs, lexicographic comparison) are given as computable
  Lean functions on `Str`.
* The S3 status store is a map from keys to optional status records;
  `put_object` is overwrite semantics.
* Timestamps are opaque strings supplied by the caller (`now` parameters).
* Each writer of a status document builds exactly the fields the
  corresponding `json.dumps` call serialises; a field is `none` when the
  document omits the key.
-/

namespace Sched

/-- Python strings, modelled as their code-point sequences. -/
abbrev Str := List Char

/-- Numeric value of a run of ASCII digits, as Python `int()` computes it for
a plain digit string (leading zeros allowed). -/
def digitsVal (ds : Str) : Nat :=
  ds.foldl (fun a c => a * 10 + (c.toNat - '0'.toNat)) 0

/-- Python `str.rstrip` specialised to the slash, used on every
`CommonPrefixes` entry before the folder-name pattern checks. -/
def rstripSlash (s : Str) : Str :=
  (s.reverse.dropWhile (fun c => c == '/')).reverse

/-- Fuel-driven core of `replaceAll`; the fuel is the length of the scanned
string, which bounds the number of scanning steps. -/
def replaceAllFuel (pat rep : Str) : Nat → Str → Str
  | _, [] => []
  | 0, s => s
  | fuel + 1, c :: rest =>
      if !pat.isEmpty && pat.isPrefixOf (c :: rest) then
        rep ++ replaceAllFuel pat rep fuel (List.drop (pat.length - 1) rest)
      else
        c :: replaceAllFuel pat rep fuel rest

/-- Python `str.replace(pat, rep)`: replace all non-overlapping occurrences,
scanning left to right. The empty-pattern case, which Python treats
specially, never arises at the one call site `folder.replace("result_", "")`
and is modelled as a plain scan. -/
def replaceAll (pat rep s : Str) : Str :=
  replaceAllFuel pat rep s.length s

/-- Python `int()` restricted to the strings that reach it here: a nonempty
run of digits parses to its value, anything else raises (is `none`). -/
def pyIntDigits (s : Str) : Option Nat :=
  if s.isEmpty then none
  else if s.all Char.isDigit then some (digitsVal s) else none

/-- Decimal digits of a natural number, as `str(n)` renders it; fuel-driven
with sufficient fuel. -/
def natStrFuel : Nat → Nat → Str
  | 0, _ => []
  | fuel + 1, n =>
      if n < 10 then [Char.ofNat (n + '0'.toNat)]
      else natStrFuel fuel (n / 10) ++ [Char.ofNat (n % 10 + '0'.toNat)]

/-- Python `str(n)` for a natural number. -/
def natStr (n : Nat) : Str := natStrFuel (n + 1) n

/-- Python `str(i)` for an integer. -/
def intStr (i : Int) : Str :=
  if i < 0 then '-' :: natStr i.natAbs else natStr i.natAbs

/-- A run status record, as stored at `runs/<run_id>/status.json` by the S3
writers, or held in the in-memory `active_runs` table of `lambda_handler.py`.
A field is `none` when the written JSON document omits the key. The
`run_id` key inside the document is not modelled (the store key determines
it), and auxiliary keys that no claim mentions (`result`,
`output_directory`, `completed_at`, `stopped_at`, `elapsed_seconds`,
`started_at`, `solver_stats`) are left out. -/
structure StatusRecord where
  status : Str
  progress : Option Int
  message : Str
  created_at : Option Str
  updated_at : Option Str
  error : Option Str
deriving Repr, DecidableEq

/-- The durable status store: S3 keys to optional JSON documents. -/
abbrev Store := Str → Option StatusRecord

/-- Overwrite-semantics `put_object`. -/
def Store.put (s : Store) (k : Str) (v : StatusRecord) : Store :=
  fun q => if q = k then some v else s q

/-- A bucket with no status documents. -/
def emptyStore : Store := fun _ => none

/-- The status key of a run: `runs/<run_id>/status.json`. -/
def statusKey (rid : Str) : Str :=
  "runs/".data ++ rid ++ "/status.json".data

/-- The three terminal statuses of the run state machine. -/
def isTerminal (s : Str) : Bool :=
  s == "completed".data || s == "failed".data || s == "stopped".data

/-
Result-number allocation.  `lambda_handler.get_next_result_number` scans the
top-level common prefixes with the anchored regex
`(?:Result_|result_)(\d+)` and keeps a running maximum;
`solver_worker_ecs.get_next_result_number` keeps only names that start with
lowercase `result_`, strips that prefix with `str.replace` and applies
`int()`, collecting the successes.
-/

/-- The anchored match `re.match(r'(?:Result_|result_)(\d+)', folder)` used
by `lambda_handler.get_next_result_number`: the name must start with
`Result_` or `result_` followed by at least one digit; the captured group is
the longest leading digit run after the prefix. -/
def matchResultNum (folder : Str) : Option Nat :=
  let tail : Option Str :=
    if "Result_".data.isPrefixOf folder then some (folder.drop 7)
    else if "result_".data.isPrefixOf folder then some (folder.drop 7)
    else none
  match tail with
  | none => none
  | some t =>
      let ds := t.takeWhile Char.isDigit
      if ds.isEmpty then none else some (digitsVal ds)

/-- The `max_num` accumulator loop of `lambda_handler.get_next_result_number`
over the listed prefixes. -/
def scanMax : List Str → Nat → Nat
  | [], m => m
  | p :: ps, m =>
      match matchResultNum (rstripSlash p) with
      | some n => scanMax ps (max m n)
      | none => scanMax ps m

/-- lambda_handler.get_next_result_number: `max_num + 1` over the regex
matches (1 when nothing matches). -/
def get_next_result_number (pfxs : List Str) : Nat :=
  scanMax pfxs 0 + 1

/-- The per-prefix parse of `solver_worker_ecs.get_next_result_number`: keep
the name only when it starts with lowercase `result_`, strip every
occurrence of `result_` with `str.replace`, and apply `int()`. -/
def ecsResultNumOf (p : Str) : Option Nat :=
  let folder := rstripSlash p
  if "result_".data.isPrefixOf folder then
    pyIntDigits (replaceAll "result_".data [] folder)
  else none

/-- solver_worker_ecs.get_next_result_number: `max(numbers) + 1` over the
collected lowercase matches, 1 when the list is empty (which also covers the
early return on an empty prefix listing). -/
def ecs_get_next_result_number (pfxs : List Str) : Nat :=
  let numbers := pfxs.filterMap ecsResultNumOf
  if numbers.isEmpty then 1 else numbers.foldl max 0 + 1

/-
Progress writers.  `lambda_handler.update_progress` is the staged in-memory
writer guarded by the stored value; `solver_worker_ecs.SmoothProgressTracker`
is the background estimator guarded by its own `last_progress`.
-/

/-- lambda_handler.update_progress: write the new progress, message and
`updated_at` into the run record only when the new value strictly exceeds the
stored one (`active_runs[run_id].get('progress', 0)`); otherwise leave the
record untouched. Returns the record and the durably written value, if
any. -/
def update_progress (r : StatusRecord) (p : Int) (m : Str) (now : Str) :
    StatusRecord × Option Int :=
  if r.progress.getD 0 < p then
    ({ r with progress := some p, message := m, updated_at := some now }, some p)
  else (r, none)

/-- The progress values a sequence of staged `update_progress` requests
(value, message, timestamp) durably writes into one run record. -/
def stagedWrites : StatusRecord → List (Int × Str × Str) → List Int
  | _, [] => []
  | r, (p, m, now) :: rest =>
      match update_progress r p m now with
      | (r2, some w) => w :: stagedWrites r2 rest
      | (r2, none) => stagedWrites r2 rest

/-- The banded time curve of `SmoothProgressTracker._update_loop`, on elapsed
seconds. Python evaluates the band formulas in float arithmetic and applies
`int()`; on the nonnegative band arguments this is the floor, i.e. natural
division. -/
def progressCurve (e : Nat) : Nat :=
  if e < 60 then 20 * e / 60
  else if e < 300 then 20 + 30 * (e - 60) / 240
  else if e < 1800 then 50 + 25 * (e - 300) / 1500
  else if e < 3600 then 75 + 10 * (e - 1800) / 1800
  else if e < 7200 then 85 + 7 * (e - 3600) / 3600
  else 92 + 3 * min (e - 7200) 3600 / 3600

/-- The mutable state of a SmoothProgressTracker: its `last_progress`. -/
structure TrackerState where
  last : Nat
deriving Repr, DecidableEq

/-- One iteration of `SmoothProgressTracker._update_loop` at a given elapsed
time: clamp the curve value below by `last_progress` and above by 95, and
put a `running` status document only on a strict increase. Returns the new
tracker state and the written progress, if any. -/
def trackerTick (t : TrackerState) (e : Nat) : TrackerState × Option Nat :=
  let p := min (max (progressCurve e) t.last) 95
  if t.last < p then (⟨p⟩, some p) else (t, none)

/-- The progress values the tracker writes over a sequence of loop
iterations, at the given elapsed times. -/
def trackerWrites : TrackerState → List Nat → List Nat
  | _, [] => []
  | t, e :: es =>
      match trackerTick t e with
      | (t2, some p) => p :: trackerWrites t2 es
      | (t2, none) => trackerWrites t2 es

/-- solver_worker_ecs.update_job_status: unconditionally overwrite the status
document of the run with the given status, the metadata progress value
(defaulted to 0 when the metadata carries none), the metadata message, and a
fresh `updated_at`. The written document has no `created_at` and no `error`
key (the metadata `error` entry is not serialised). -/
def update_job_status (store : Store) (rid : Str) (status : Str)
    (progress : Option Int) (message : Str) (now : Str) : Store :=
  store.put (statusKey rid)
    { status := status
      progress := some (progress.getD 0)
      message := message
      created_at := none
      updated_at := some now
      error := none }

/-- The ordered (status, progress) pairs that one pass of
`solver_worker_ecs.process_solver_job` writes to the status document of its
run: the initial `running`/0 write, then the tracker writes at the given
elapsed times (cooperative stop modelled by the list ending), then the single
terminal write, `completed`/100 on solver success or `failed`/0 on a solver
exception (0 because the failure metadata carries no progress key). -/
def process_solver_job_writes (es : List Nat) (outcome : Except Str Unit) :
    List (Str × Int) :=
  ("running".data, 0) ::
    ((trackerWrites ⟨0⟩ es).map (fun p => ("running".data, Int.ofNat p)) ++
      [((match outcome with
         | .ok _ => ("completed".data, (100 : Int))
         | .error _ => ("failed".data, 0)) : Str × Int)])

/-
Cancellation.  `lambda_handler.stop_solver` lists the running ECS tasks,
matches them on their RUN_ID environment value, and writes a `stopped`
status document in three of its four outcomes.
-/

/-- The view of the ECS cluster that stop_solver obtains: either the task
listing raises, or it yields the RUN_ID environment value of every running
task (`none` when the variable is absent from the task). -/
inductive EcsTasks where
  | listFail (err : Str)
  | tasks (ts : List (Option Str))
deriving Repr, DecidableEq

/-- The `stopped` document stop_solver writes when the cluster reports no
running task at all: status and message only, no progress key. -/
def stopNoTaskRecord : StatusRecord :=
  { status := "stopped".data
    progress := none
    message := "No running task found - already completed or stopped".data
    created_at := none
    updated_at := none
    error := none }

/-- The `stopped` document stop_solver writes after terminating a matching
task: progress 0 and the user-stop message (`stopped_at` is not
modelled). -/
def stopMatchedRecord : StatusRecord :=
  { status := "stopped".data
    progress := some 0
    message := "Solver stopped by user".data
    created_at := none
    updated_at := none
    error := none }

/-- The best-effort `stopped` document written when listing the tasks
raises: status and a message embedding the first 50 characters of the
error. -/
def stopListFailRecord (err : Str) : StatusRecord :=
  { status := "stopped".data
    progress := none
    message := "Stop requested (error finding task: ".data ++ err.take 50 ++ ")".data
    created_at := none
    updated_at := none
    error := none }

/-- lambda_handler.stop_solver: on a listing failure, best-effort write a
`stopped` document and answer `stopped_or_completing`; with no running tasks,
write a `stopped` document and answer `no_task`; with a task whose RUN_ID
matches, stop it, write a `stopped` document and answer `stopped`; with
running tasks but no match, answer `not_found` without touching the store. -/
def stop_solver (store : Store) (rid : Str) (ecs : EcsTasks) : Store × Str :=
  match ecs with
  | .listFail err =>
      (store.put (statusKey rid) (stopListFailRecord err),
        "stopped_or_completing".data)
  | .tasks ts =>
      if ts.isEmpty then
        (store.put (statusKey rid) stopNoTaskRecord, "no_task".data)
      else if ts.contains (some rid) then
        (store.put (statusKey rid) stopMatchedRecord, "stopped".data)
      else (store, "not_found".data)

/-
Terminal effects of the two workers, and the dispatcher.
-/

/-- The exception handler of `lambda_handler.run_optimization`:
`active_runs[run_id].update(...)` with status `failed`, progress -1, message
and error both `str(e)`; the dict update preserves every other key,
`created_at` included (`completed_at` is not modelled). -/
def lambda_fail_update (r : StatusRecord) (e : Str) : StatusRecord :=
  { r with
    status := "failed".data
    progress := some (-1)
    message := e
    error := some e }

/-- The terminal effect of `lambda_handler.run_optimization` on the result
folders and the in-memory run record: on solver success a freshly numbered
folder is uploaded and the record completes with progress 100; on a solver
exception no folder is created and the record fails with progress -1. The
folder list holds the top-level folder names of the bucket. -/
def run_optimization_final (folders : List Str) (r : StatusRecord)
    (outcome : Except Str Unit) : List Str × StatusRecord :=
  match outcome with
  | .error e => (folders, lambda_fail_update r e)
  | .ok _ =>
      let fname := "result_".data ++
        natStr (get_next_result_number (folders.map (fun f => f ++ [ '/' ])))
      (folders ++ [fname],
        { r with
          status := "completed".data
          progress := some 100
          message := "Optimization completed successfully".data })

/-- The terminal effect of `solver_worker_ecs.process_solver_job` on the
result folders and the status store: on solver success the freshly numbered
folder is uploaded and `update_job_status completed`/100 is written; on a
solver exception no folder is created and `update_job_status failed` is
invoked with metadata carrying only the error and the message, so the
written progress defaults to 0 and the exception text lands only in the
message field. -/
def ecs_job_final (folders : List Str) (store : Store) (rid : Str)
    (outcome : Except Str Unit) (now : Str) : List Str × Store :=
  match outcome with
  | .error e =>
      (folders,
        update_job_status store rid "failed".data none
          ("Solver error: ".data ++ e) now)
  | .ok _ =>
      let fname := "result_".data ++
        natStr (ecs_get_next_result_number (folders.map (fun f => f ++ [ '/' ])))
      (folders ++ [fname],
        update_job_status store rid "completed".data (some 100)
          "Optimization completed".data now)

/-- The immediate response of `lambda_handler.solve`. -/
structure SolveResponse where
  run_id : Str
  status : Str
  progress : Int
  message : Str
deriving Repr, DecidableEq

/-- lambda_handler.solve with a configured queue URL: write the initial
`queued` status document, then enqueue. On an enqueue failure, overwrite the
document with a `failed` record carrying the queue error (and the submission
`created_at`), and raise the failure to the caller (HTTP 500) instead of
returning the queued response. -/
def solve (store : Store) (rid : Str) (enq : Except Str Unit) (now : Str) :
    Store × Except Str SolveResponse :=
  let queued : StatusRecord :=
    { status := "queued".data
      progress := some 0
      message := "Optimization queued, waiting to start".data
      created_at := some now
      updated_at := some now
      error := none }
  let store1 := store.put (statusKey rid) queued
  match enq with
  | .ok _ =>
      (store1, .ok { run_id := rid, status := "queued".data, progress := 0
                     , message := "Optimization queued".data })
  | .error e =>
      (store1.put (statusKey rid)
        { status := "failed".data
          progress := some 0
          message := "Failed to queue job: ".data ++ e
          created_at := some now
          updated_at := some now
          error := some e },
        .error ("Failed to queue job: ".data ++ e))

/-
Result upload.  Both upload helpers put every solver output file under the
fresh folder prefix and put `<folder>/metadata.json` afterwards.
-/

/-- The folder name `lambda_handler.upload_results_to_s3` allocates. -/
def uploadFolder (pfxs : List Str) : Str :=
  "result_".data ++ natStr (get_next_result_number pfxs)

/-- The folder name `solver_worker_ecs.upload_results_to_s3` allocates. -/
def ecsUploadFolder (pfxs : List Str) : Str :=
  "result_".data ++ natStr (ecs_get_next_result_number pfxs)

/-- The ordered sequence of S3 keys `lambda_handler.upload_results_to_s3`
puts: one put per file of the solver output directory (none when the
directory is absent), then the metadata.json put, always last. -/
def upload_results_to_s3_keys (pfxs : List Str) (dirPresent : Bool)
    (files : List Str) : List Str :=
  let folder := uploadFolder pfxs
  (if dirPresent then files.map (fun f => folder ++ [ '/' ] ++ f) else []) ++
    [folder ++ "/metadata.json".data]

/-- The ordered sequence of S3 keys `solver_worker_ecs.upload_results_to_s3`
puts: when the output directory is absent it returns early and writes
nothing; otherwise every walked file, then metadata.json last. -/
def ecs_upload_results_to_s3_keys (pfxs : List Str) (dirPresent : Bool)
    (files : List Str) : List Str :=
  let folder := ecsUploadFolder pfxs
  if dirPresent then
    (files.map (fun f => folder ++ [ '/' ] ++ f)) ++
      [folder ++ "/metadata.json".data]
  else []

/-
Folder listing, lambda_handler.list_result_folders.
-/

/-- The parsed metadata.json of a result folder. -/
structure FolderMeta where
  created_at : Str
  solutions_count : Nat
deriving Repr, DecidableEq

/-- An S3 top-level folder as the listing endpoint sees it: its name, the
parsed metadata.json (`none` when the get or the parse raises), and the keys
under the prefix with their sizes (the bare folder marker excluded, as the
code excludes it from the counts). -/
structure S3Folder where
  name : Str
  metadata : Option FolderMeta
  files : List (Str × Nat)
deriving Repr, DecidableEq

/-- One row of the listing response. -/
structure FolderEntry where
  name : Str
  created : Str
  solutions_count : Nat
  file_count : Nat
  total_size : Nat
deriving Repr, DecidableEq

/-- One listing entry: on a metadata failure the folder is still listed, with
degraded fields (the current time as `created`, zero counts). -/
def folderEntry (now : Str) (f : S3Folder) : FolderEntry :=
  match f.metadata with
  | some md =>
      { name := f.name
        created := md.created_at
        solutions_count := md.solutions_count
        file_count := f.files.length
        total_size := (f.files.map (fun kv => kv.2)).sum }
  | none =>
      { name := f.name
        created := now
        solutions_count := 0
        file_count := 0
        total_size := 0 }

/-- lambda_handler.list_result_folders: keep only the folders whose name
starts with lowercase `result_`, build an entry for each (degraded on a
metadata failure), then `folders.sort(key=lambda x: x['name'], reverse=True)`.
Python performs a stable sort by the total lexicographic order on names, so
its output is the insertion sort under the tie-keeping descending
relation. -/
def list_result_folders (now : Str) (folders : List S3Folder) :
    List FolderEntry :=
  List.insertionSort (fun a b : FolderEntry => b.name ≤ a.name)
    ((folders.filter (fun f => "result_".data.isPrefixOf f.name)).map
      (folderEntry now))

/-
The Lambda worker progress loop, lambda_worker_handler.ProgressUpdater.
-/

/-- The status document one iteration of
`lambda_worker_handler.ProgressUpdater._update_loop` puts: exactly the keys
status, progress, message and started_at (not modelled). It carries neither
`created_at` nor `updated_at`, and replaces the stored document wholesale. -/
def progress_updater_record (p : Int) : StatusRecord :=
  { status := "running".data
    progress := some p
    message := "Solving optimization... ".data ++ intStr p ++ "%".data
    created_at := none
    updated_at := none
    error := none }

/-- The store effect of one ProgressUpdater iteration. -/
def progress_updater_write (store : Store) (rid : Str) (p : Int) : Store :=
  store.put (statusKey rid) (progress_updater_record p)

/-
Progress monotonicity (C1).
-/

/-- The tracker write sequence is non-decreasing, and bounded below by the
`last_progress` the tracker starts from: each write is guarded by a strict
comparison against `last_progress` after clamping the curve value from below
by it. -/
theorem trackerWrites_chain : ∀ (es : List Nat) (t : TrackerState),
    List.Chain' (fun a b => a ≤ b) (t.last :: trackerWrites t es)
  | [], _ => by simp [trackerWrites]
  | e :: es, t => by
    simp only [trackerWrites]
    rcases hw : trackerTick t e with ⟨t2, w⟩
    simp only [trackerTick] at hw
    split at hw
    case isTrue h =>
      cases hw
      exact List.Chain'.cons (Nat.le_of_lt h) (trackerWrites_chain es _)
    case isFalse h =>
      cases hw
      exact trackerWrites_chain es t

/-- The staged write sequence of update_progress is non-decreasing and
bounded below by the stored progress: each write is guarded by a strict
comparison against the stored value. -/
theorem stagedWrites_chain : ∀ (reqs : List (Int × Str × Str)) (r : StatusRecord),
    List.Chain' (fun a b => a ≤ b) (r.progress.getD 0 :: stagedWrites r reqs)
  | [], _ => by simp [stagedWrites]
  | (p, m, now) :: rest, r => by
    simp only [stagedWrites]
    rcases hw : update_progress r p m now with ⟨r2, w⟩
    simp only [update_progress] at hw
    split at hw
    case isTrue h =>
      cases hw
      refine List.Chain'.cons (le_of_lt h) ?_
      have := stagedWrites_chain rest
        ({ r with progress := some p, message := m, updated_at := some now })
      simpa using this
    case isFalse h =>
      cases hw
      exact stagedWrites_chain rest r

/-- C1: for every run and every sequence of progress writes performed while
the status is non-terminal, the written progress values are non-decreasing,
across the writers of the run record: the staged update_progress writes of
lambda_handler (first conjunct, for any request sequence against any stored
record), and the full write sequence of one processing pass of the ECS
worker, in which the initial running/0 write of update_job_status and the
SmoothProgressTracker writes are the only writes with a non-terminal status
(second conjunct, filtering the terminal write out of the job trace). -/
theorem progress_writes_monotone :
    (∀ (r : StatusRecord) (reqs : List (Int × Str × Str)),
        List.Chain' (fun a b => a ≤ b) (r.progress.getD 0 :: stagedWrites r reqs)) ∧
    (∀ (es : List Nat) (outcome : Except Str Unit),
        List.Chain' (fun a b => a ≤ b)
          (((process_solver_job_writes es outcome).filter
              (fun w => !isTerminal w.1)).map (fun w => w.2))) := by
  constructor
  · exact fun r reqs => stagedWrites_chain reqs r
  · intro es outcome
    have hB : ((trackerWrites ⟨0⟩ es).map
          (fun p => ("running".data, Int.ofNat p))).filter
          (fun w => !isTerminal w.1) =
        (trackerWrites ⟨0⟩ es).map (fun p => ("running".data, Int.ofNat p)) := by
      refine List.filter_eq_self.mpr ?_
      intro x hx
      rcases List.mem_map.mp hx with ⟨p, _, rfl⟩
      show (!isTerminal "running".data) = true
      decide
    have hfilter :
        (process_solver_job_writes es outcome).filter (fun w => !isTerminal w.1) =
          ("running".data, (0 : Int)) ::
            (trackerWrites ⟨0⟩ es).map (fun p => ("running".data, Int.ofNat p)) := by
      cases outcome with
      | ok u =>
          show (("running".data, (0 : Int)) ::
              ((trackerWrites ⟨0⟩ es).map (fun p => ("running".data, Int.ofNat p)) ++
                [("completed".data, (100 : Int))])).filter
              (fun w => !isTerminal w.1) = _
          rw [List.filter_cons,
            if_pos (by decide : ((fun w : Str × Int => !isTerminal w.1)
              ("running".data, (0 : Int)) = true)),
            List.filter_append, hB, List.filter_cons,
            if_neg (by decide : ¬ ((fun w : Str × Int => !isTerminal w.1)
              ("completed".data, (100 : Int)) = true)),
            List.filter_nil, List.append_nil]
      | error e =>
          show (("running".data, (0 : Int)) ::
              ((trackerWrites ⟨0⟩ es).map (fun p => ("running".data, Int.ofNat p)) ++
                [("failed".data, (0 : Int))])).filter
              (fun w => !isTerminal w.1) = _
          rw [List.filter_cons,
            if_pos (by decide : ((fun w : Str × Int => !isTerminal w.1)
              ("running".data, (0 : Int)) = true)),
            List.filter_append, hB, List.filter_cons,
            if_neg (by decide : ¬ ((fun w : Str × Int => !isTerminal w.1)
              ("failed".data, (0 : Int)) = true)),
            List.filter_nil, List.append_nil]
    rw [hfilter]
    have hmap :
        (("running".data, (0 : Int)) ::
            (trackerWrites ⟨0⟩ es).map (fun p => ("running".data, Int.ofNat p))).map
          (fun w => w.2) =
          ((0 : Nat) :: trackerWrites ⟨0⟩ es).map (fun p : Nat => Int.ofNat p) := by
      simp only [List.map_cons, List.map_map]
      rfl
    rw [hmap, List.chain'_map]
    have hnat : List.Chain' (fun a b => a ≤ b)
        ((0 : Nat) :: trackerWrites ⟨0⟩ es) := trackerWrites_chain es ⟨0⟩
    exact hnat.imp (fun a b h => Int.ofNat_le.mpr h)

/-
Terminal statuses and the stop endpoint (C2, C3).
-/

/-- A completed run record, as the worker leaves it. -/
def completedRec : StatusRecord :=
  { status := "completed".data
    progress := some 100
    message := "Optimization completed".data
    created_at := some "t0".data
    updated_at := some "t1".data
    error := none }

/-- A store holding a completed record for run r1. -/
def c2_store : Store :=
  Store.put emptyStore (statusKey "r1".data) completedRec

/-- C2 counterexample: a run whose stored record is terminal (completed,
progress 100) is not protected; a stop request issued when the cluster
reports no running tasks overwrites the record, so the stored status becomes
stopped and the stored progress becomes absent: both change after the
terminal write, contradicting the claim. -/
theorem terminal_status_overwritten_by_stop :
    isTerminal completedRec.status = true ∧
    c2_store (statusKey "r1".data) = some completedRec ∧
    ((stop_solver c2_store "r1".data (.tasks [])).1 (statusKey "r1".data)).map
        (fun rec => rec.status) = some "stopped".data ∧
    ((stop_solver c2_store "r1".data (.tasks [])).1 (statusKey "r1".data)).map
        (fun rec => rec.progress) = some none ∧
    "stopped".data ≠ completedRec.status ∧
    (none : Option Int) ≠ completedRec.progress := by
  decide

/-- C2 amended: within one processing pass the worker writes exactly one
terminal status, and it is the final write of the pass (first conjunct); but
terminal records are not write-protected: status writers write
unconditionally, so a stop request arriving after the terminal write (here
with no running tasks) replaces the stored record with the fresh stopped
document, changing the stored status and progress (second conjunct). -/
theorem worker_terminal_write_last_but_unguarded :
    (∀ (es : List Nat) (outcome : Except Str Unit),
        ∃ pre w, process_solver_job_writes es outcome = pre ++ [w] ∧
          isTerminal w.1 = true ∧ ∀ v ∈ pre, isTerminal v.1 = false) ∧
    (∀ (store : Store) (rid : Str) (rec : StatusRecord),
        store (statusKey rid) = some rec → isTerminal rec.status = true →
        (stop_solver store rid (.tasks [])).1 (statusKey rid)
          = some stopNoTaskRecord) := by
  constructor
  · intro es outcome
    refine ⟨("running".data, (0 : Int)) ::
        (trackerWrites ⟨0⟩ es).map (fun p => ("running".data, Int.ofNat p)),
      ((match outcome with
        | .ok _ => ("completed".data, (100 : Int))
        | .error _ => ("failed".data, 0)) : Str × Int), ?_, ?_, ?_⟩
    · rw [List.cons_append]
      rfl
    · cases outcome with
      | ok _ =>
          show isTerminal "completed".data = true
          decide
      | error _ =>
          show isTerminal "failed".data = true
          decide
    · intro v hv
      rcases List.mem_cons.mp hv with rfl | hv
      · decide
      · rcases List.mem_map.mp hv with ⟨p, _, rfl⟩
        show isTerminal "running".data = false
        decide
  · intro store rid rec _ _
    show (store.put (statusKey rid) stopNoTaskRecord) (statusKey rid)
      = some stopNoTaskRecord
    simp [Store.put]

/-- C2 amended witness: the stop request applied to the store holding the
completed record of r1 replaces it with the stopped document. -/
theorem worker_terminal_write_last_but_unguarded_witness :
    (stop_solver c2_store "r1".data (.tasks [])).1 (statusKey "r1".data)
      = some stopNoTaskRecord :=
  worker_terminal_write_last_but_unguarded.2 c2_store "r1".data completedRec
    (by decide) (by decide)

/-- A running run record, as the tracker leaves it mid-solve. -/
def runningRec : StatusRecord :=
  { status := "running".data
    progress := some 40
    message := "Optimizing solution quality... 40%".data
    created_at := none
    updated_at := some "t1".data
    error := none }

/-- A store holding a running record for run r1. -/
def c3_store : Store :=
  Store.put emptyStore (statusKey "r1".data) runningRec

/-- C3 counterexample: with one running task in the cluster whose RUN_ID is
r2, a stop request for r1 takes the unmatched branch: stop_solver answers
not_found and performs no store write, so the stored status of r1 remains
running, not stopped — contradicting the claim that every outcome writes a
stopped record. -/
theorem stop_unmatched_leaves_status_unchanged :
    (stop_solver c3_store "r1".data (.tasks [some "r2".data])).1
        (statusKey "r1".data) = some runningRec ∧
    (stop_solver c3_store "r1".data (.tasks [some "r2".data])).2
        = "not_found".data ∧
    runningRec.status ≠ "stopped".data := by
  decide

/-- C3 amended: stop_solver writes a stopped record in three of its four
outcomes — task enumeration failing, no running tasks at all, and a running
task matching the run_id — but when tasks are running and none matches, it
answers not_found and leaves the store unchanged. -/
theorem stop_writes_stopped_in_three_outcomes :
    (∀ (store : Store) (rid err : Str),
        ((stop_solver store rid (.listFail err)).1 (statusKey rid)).map
          (fun rec => rec.status) = some "stopped".data) ∧
    (∀ (store : Store) (rid : Str),
        ((stop_solver store rid (.tasks [])).1 (statusKey rid)).map
          (fun rec => rec.status) = some "stopped".data) ∧
    (∀ (store : Store) (rid : Str) (ts : List (Option Str)),
        ts.contains (some rid) = true →
        ((stop_solver store rid (.tasks ts)).1 (statusKey rid)).map
          (fun rec => rec.status) = some "stopped".data) ∧
    (∀ (store : Store) (rid : Str) (ts : List (Option Str)),
        ts ≠ [] → ts.contains (some rid) = false →
        (stop_solver store rid (.tasks ts)).1 = store) := by
  refine ⟨?_, ?_, ?_, ?_⟩
  · intro store rid err
    simp [stop_solver, Store.put, stopListFailRecord]
  · intro store rid
    simp [stop_solver, Store.put, stopNoTaskRecord]
  · intro store rid ts hts
    have hne : ts.isEmpty = false := by
      cases ts with
      | nil => exact Bool.noConfusion hts
      | cons a l => rfl
    have hmem : some rid ∈ ts := by
      simpa using hts
    simp [stop_solver, hne, hmem, Store.put, stopMatchedRecord]
  · intro store rid ts hne hts
    have hne2 : ts.isEmpty = false := by
      cases ts with
      | nil => exact absurd rfl hne
      | cons a l => rfl
    have hmem : some rid ∉ ts := by
      simpa using hts
    simp [stop_solver, hne2, hmem]

/-- C3 amended witness: a stop request for r1 with a single matching running
task writes status stopped. -/
theorem stop_writes_stopped_in_three_outcomes_witness :
    ((stop_solver emptyStore "r1".data (.tasks [some "r1".data])).1
        (statusKey "r1".data)).map (fun rec => rec.status)
      = some "stopped".data :=
  stop_writes_stopped_in_three_outcomes.2.2.1 emptyStore "r1".data
    [some "r1".data] (by decide)

/-
Result-number allocation (C4).
-/

/-- The scan accumulator only grows. -/
theorem le_scanMax : ∀ (ps : List Str) (m : Nat), m ≤ scanMax ps m
  | [], m => le_refl m
  | p :: ps, m => by
    simp only [scanMax]
    cases hm : matchResultNum (rstripSlash p) with
    | some n => exact le_trans (le_max_left m n) (le_scanMax ps (max m n))
    | none => exact le_scanMax ps m

/-- Every number matched by the regex scan is bounded by the accumulated
maximum. -/
theorem mem_scanMax : ∀ (ps : List Str) (p : Str) (n : Nat), p ∈ ps →
    matchResultNum (rstripSlash p) = some n → ∀ m, n ≤ scanMax ps m
  | [], p, _, hp, _, _ => absurd hp (List.not_mem_nil p)
  | q :: ps, p, n, hp, hn, m => by
    rcases List.mem_cons.mp hp with rfl | hmem
    · simp only [scanMax]
      rw [hn]
      exact le_trans (le_max_right m n) (le_scanMax ps (max m n))
    · simp only [scanMax]
      cases hq : matchResultNum (rstripSlash q) with
      | some k => exact mem_scanMax ps p n hmem hn (max m k)
      | none => exact mem_scanMax ps p n hmem hn m

/-- A left fold of max only grows. -/
theorem le_foldl_max : ∀ (l : List Nat) (m : Nat), m ≤ l.foldl max m
  | [], m => le_refl m
  | x :: l, m => le_trans (le_max_left m x) (le_foldl_max l (max m x))

/-- Every member of a list is bounded by its max fold. -/
theorem mem_le_foldl_max : ∀ (l : List Nat) (x : Nat), x ∈ l →
    ∀ m, x ≤ l.foldl max m
  | [], x, hx, _ => absurd hx (List.not_mem_nil x)
  | y :: l, x, hx, m => by
    rcases List.mem_cons.mp hx with rfl | hmem
    · exact le_trans (le_max_right m x) (le_foldl_max l (max m x))
    · exact mem_le_foldl_max l x hmem (max m y)

/-- C4 counterexample: the ECS worker allocator does not match the legacy
Result_ variant: on a store whose only top-level folder is Result_3 it
returns 1, not max(N)+1 = 4. -/
theorem ecs_allocator_ignores_legacy :
    ecs_get_next_result_number ["Result_3/".data] = 1 ∧ (1 : Nat) ≠ 3 + 1 := by
  decide

/-- C4 amended: both allocators are max-based — the allocated number strictly
exceeds every number their scan matches, an empty store yields 1 and the
store result_1, result_3 yields 4 for both — but only the lambda_handler
allocator accepts the legacy Result_ variant (Result_3 yields 4 there); the
ECS worker allocator matches lowercase result_ only and returns 1 on a store
holding only Result_3. -/
theorem result_number_allocation_max_based :
    (get_next_result_number [] = 1) ∧
    (get_next_result_number ["result_1/".data, "result_3/".data] = 4) ∧
    (ecs_get_next_result_number [] = 1) ∧
    (ecs_get_next_result_number ["result_1/".data, "result_3/".data] = 4) ∧
    (get_next_result_number ["Result_3/".data] = 4) ∧
    (∀ (ps : List Str) (p : Str) (n : Nat), p ∈ ps →
        matchResultNum (rstripSlash p) = some n →
        n < get_next_result_number ps) ∧
    (∀ (ps : List Str) (p : Str) (n : Nat), p ∈ ps →
        ecsResultNumOf p = some n → n < ecs_get_next_result_number ps) := by
  refine ⟨by decide, by decide, by decide, by decide, by decide, ?_, ?_⟩
  · intro ps p n hp hn
    exact Nat.lt_succ_of_le (mem_scanMax ps p n hp hn 0)
  · intro ps p n hp hn
    have hmem : n ∈ ps.filterMap ecsResultNumOf :=
      List.mem_filterMap.mpr ⟨p, hp, hn⟩
    have hne : (ps.filterMap ecsResultNumOf).isEmpty = false := by
      cases h : ps.filterMap ecsResultNumOf with
      | nil => rw [h] at hmem; exact absurd hmem (List.not_mem_nil n)
      | cons a l => rfl
    simp only [ecs_get_next_result_number, hne, Bool.false_eq_true, if_false]
    exact Nat.lt_succ_of_le (mem_le_foldl_max _ n hmem 0)

/-- C4 amended witness: the allocated number is fresh on a concrete store
holding result_5. -/
theorem result_number_allocation_max_based_witness :
    5 < get_next_result_number ["result_5/".data] :=
  result_number_allocation_max_based.2.2.2.2.2.1 ["result_5/".data]
    "result_5/".data 5 (by decide) (by decide)

/-
Solver-exception handling (C5).
-/

/-- C5 counterexample: in the ECS worker, a solver exception (here with text
boom) leads to a failed status document whose progress is 0, not -1, and
whose document carries no error key at all (update_job_status does not
serialise the metadata error entry) — contradicting the claim that the
failure record holds progress -1 and the error string. -/
theorem ecs_failure_progress_zero :
    (((ecs_job_final [] emptyStore "r1".data (.error "boom".data)
          "t1".data).2 (statusKey "r1".data)).map
        (fun rec => rec.progress)) = some (some 0) ∧
    some (some (0 : Int)) ≠ some (some (-1 : Int)) ∧
    (((ecs_job_final [] emptyStore "r1".data (.error "boom".data)
          "t1".data).2 (statusKey "r1".data)).map
        (fun rec => rec.error)) = some none := by
  decide

/-- C5 amended: on a solver exception no result folder is created by either
worker; the lambda_handler worker marks the run failed with progress -1 and
the error string equal to the exception text (nonempty when the exception
text is), while the ECS worker marks the run failed with progress 0 and
captures the exception text only inside the message field, with no error
key in the document. -/
theorem solver_exception_failure_records :
    ∀ (folders : List Str) (r : StatusRecord) (store : Store)
      (rid e now : Str), e ≠ [] →
      ((run_optimization_final folders r (.error e)).1 = folders ∧
        (run_optimization_final folders r (.error e)).2.status
          = "failed".data ∧
        (run_optimization_final folders r (.error e)).2.progress
          = some (-1) ∧
        (run_optimization_final folders r (.error e)).2.error = some e ∧
        (run_optimization_final folders r (.error e)).2.error ≠ some []) ∧
      ((ecs_job_final folders store rid (.error e) now).1 = folders ∧
        (ecs_job_final folders store rid (.error e) now).2 (statusKey rid) =
          some { status := "failed".data
                 progress := some 0
                 message := "Solver error: ".data ++ e
                 created_at := none
                 updated_at := some now
                 error := none }) := by
  intro folders r store rid e now he
  refine ⟨⟨rfl, rfl, rfl, rfl, ?_⟩, rfl, ?_⟩
  · intro hcontra
    exact he (Option.some.inj hcontra)
  · show (update_job_status store rid "failed".data none
      ("Solver error: ".data ++ e) now) (statusKey rid) = _
    simp [update_job_status, Store.put]

/-- C5 amended witness: the lambda_handler failure record of a concrete
failing run holds progress -1. -/
theorem solver_exception_failure_records_witness :
    (run_optimization_final [] runningRec (.error "boom".data)).2.progress
      = some (-1) :=
  (solver_exception_failure_records [] runningRec emptyStore "r2".data
      "boom".data "t1".data (by decide)).1.2.2.1

/-
Folder listing order (C6).
-/

/-- A well-formed metadata document for the demonstration folders. -/
def demoMeta : FolderMeta :=
  { created_at := "2024-01-01T00:00:00".data, solutions_count := 1 }

/-- The folder result_2 with parseable metadata. -/
def folderResult2 : S3Folder :=
  { name := "result_2".data, metadata := some demoMeta,
    files := [("metadata.json".data, 100)] }

/-- The folder result_10 with parseable metadata. -/
def folderResult10 : S3Folder :=
  { name := "result_10".data, metadata := some demoMeta,
    files := [("metadata.json".data, 100)] }

/-- A folder whose metadata fails to parse. -/
def folderBroken : S3Folder :=
  { name := "result_7".data, metadata := none, files := [] }

/-- C6 counterexample: on a store holding result_10 and result_2 the listing
puts result_2 first — descending string order — although its folder number
10 > 2 would put result_10 first under the claimed numeric descending
order. -/
theorem listing_order_lexicographic_not_numeric :
    ((list_result_folders "t2".data [folderResult10, folderResult2]).map
        (fun en => en.name)) = ["result_2".data, "result_10".data] ∧
    matchResultNum "result_2".data = some 2 ∧
    matchResultNum "result_10".data = some 10 ∧
    ¬ (10 ≤ 2) := by
  decide

/-- C6 amended: the listing is sorted by folder name in descending
lexicographic string order — which disagrees with numeric order on
multi-digit numbers, listing result_2 before result_10 — and every folder
whose name has the result_ prefix appears in the listing, a folder with
unparseable metadata included (as its degraded entry). -/
theorem listing_sorted_by_name_descending :
    (∀ (now : Str) (folders : List S3Folder),
        List.Chain' (fun a b : FolderEntry => b.name ≤ a.name)
          (list_result_folders now folders)) ∧
    (∀ (now : Str) (folders : List S3Folder) (f : S3Folder), f ∈ folders →
        "result_".data.isPrefixOf f.name = true →
        folderEntry now f ∈ list_result_folders now folders) := by
  constructor
  · intro now folders
    haveI : IsTotal FolderEntry (fun a b : FolderEntry => b.name ≤ a.name) :=
      ⟨fun a b => le_total b.name a.name⟩
    haveI : IsTrans FolderEntry (fun a b : FolderEntry => b.name ≤ a.name) :=
      ⟨fun a b c h1 h2 => le_trans h2 h1⟩
    exact List.Pairwise.chain' (List.sorted_insertionSort _ _)
  · intro now folders f hf hp
    have hmem : f ∈ folders.filter
        (fun g => "result_".data.isPrefixOf g.name) :=
      List.mem_filter.mpr ⟨hf, hp⟩
    have hmem2 : folderEntry now f ∈
        (folders.filter (fun g => "result_".data.isPrefixOf g.name)).map
          (folderEntry now) := List.mem_map_of_mem _ hmem
    exact ((List.perm_insertionSort _ _).mem_iff).mpr hmem2

/-- C6 amended witness: a folder with unparseable metadata is still listed,
as its degraded entry, on a concrete store. -/
theorem listing_sorted_by_name_descending_witness :
    folderEntry "t2".data folderBroken ∈
      list_result_folders "t2".data [folderResult2, folderBroken] :=
  listing_sorted_by_name_descending.2 "t2".data [folderResult2, folderBroken]
    folderBroken (by decide) (by decide)

/-
Enqueue failure at submission (C7).
-/

/-- C7: when the enqueue of the job message fails, the submit endpoint
overwrites the queued status document with a failed record that carries the
enqueue error and the submission created_at, and answers the caller with the
error (HTTP 500) rather than a queued success response. -/
theorem enqueue_failure_surfaced :
    ∀ (store : Store) (rid e now : Str),
      ((solve store rid (.error e) now).1 (statusKey rid)).map
          (fun rec => rec.status) = some "failed".data ∧
      ((solve store rid (.error e) now).1 (statusKey rid)).map
          (fun rec => rec.error) = some (some e) ∧
      ((solve store rid (.error e) now).1 (statusKey rid)).map
          (fun rec => rec.created_at) = some (some now) ∧
      (solve store rid (.error e) now).2
          = .error ("Failed to queue job: ".data ++ e) := by
  intro store rid e now
  refine ⟨?_, ?_, ?_, rfl⟩ <;> simp [solve, Store.put]


/-
Upload ordering (C8).
-/

/-- In a list ending with a distinguished last element that occurs nowhere
earlier, any split prefix containing that element contains the whole front of
the list. -/
theorem mem_prefix_of_last_mem {α : Type} {F : List α} {x : α}
    {pre suf : List α} (hx : x ∉ F) (hsplit : F ++ [x] = pre ++ suf)
    (hxpre : x ∈ pre) : ∀ y ∈ F, y ∈ pre := by
  intro y hy
  by_cases hsuf : suf = []
  · subst hsuf
    rw [List.append_nil] at hsplit
    rw [← hsplit]
    exact List.mem_append_left _ hy
  · exfalso
    have hpre : pre <+: F ++ [x] := ⟨suf, hsplit.symm⟩
    have hF : F <+: F ++ [x] := ⟨[x], rfl⟩
    have hlen : pre.length ≤ F.length := by
      have h1 := congrArg List.length hsplit
      simp only [List.length_append, List.length_cons, List.length_nil] at h1
      have h2 : 1 ≤ suf.length := by
        cases suf with
        | nil => exact absurd rfl hsuf
        | cons a l => simp
      omega
    have hpf : pre <+: F := List.prefix_of_prefix_length_le hpre hF hlen
    exact hx (hpf.subset hxpre)

/-- The metadata key of a folder is not a file key of the folder unless the
file is itself named metadata.json. -/
theorem metadata_key_not_file_key {folder g : Str}
    (hg : g ≠ "metadata.json".data) :
    folder ++ [ '/' ] ++ g ≠ folder ++ "/metadata.json".data := by
  intro heq
  apply hg
  rw [List.append_assoc] at heq
  have h3 : [ '/' ] ++ g = "/metadata.json".data :=
    List.append_cancel_left heq
  have h4 : '/' :: g = '/' :: "metadata.json".data := h3
  exact (List.cons.inj h4).2

/-- C8: in both upload helpers every file put precedes the metadata.json
put — the metadata key is the last key written and the keys written before
it are exactly the file keys (first conjunct) — and consequently the
metadata key is a completion marker: any write prefix of the upload that
contains the metadata key contains every file key, provided no solver
output file is itself named metadata.json (second conjunct). -/
theorem metadata_written_last :
    (∀ (pfxs : List Str) (files : List Str),
        (upload_results_to_s3_keys pfxs true files).getLast?
          = some (uploadFolder pfxs ++ "/metadata.json".data) ∧
        (upload_results_to_s3_keys pfxs true files).dropLast
          = files.map (fun f => uploadFolder pfxs ++ [ '/' ] ++ f) ∧
        (ecs_upload_results_to_s3_keys pfxs true files).getLast?
          = some (ecsUploadFolder pfxs ++ "/metadata.json".data) ∧
        (ecs_upload_results_to_s3_keys pfxs true files).dropLast
          = files.map (fun f => ecsUploadFolder pfxs ++ [ '/' ] ++ f)) ∧
    (∀ (pfxs : List Str) (files : List Str) (pre suf : List Str),
        "metadata.json".data ∉ files →
        upload_results_to_s3_keys pfxs true files = pre ++ suf →
        (uploadFolder pfxs ++ "/metadata.json".data) ∈ pre →
        ∀ f ∈ files, (uploadFolder pfxs ++ [ '/' ] ++ f) ∈ pre) := by
  constructor
  · intro pfxs files
    refine ⟨?_, ?_, ?_, ?_⟩
    · show ((files.map (fun f => uploadFolder pfxs ++ [ '/' ] ++ f)) ++
        [uploadFolder pfxs ++ "/metadata.json".data]).getLast? = _
      exact List.getLast?_concat _
    · show ((files.map (fun f => uploadFolder pfxs ++ [ '/' ] ++ f)) ++
        [uploadFolder pfxs ++ "/metadata.json".data]).dropLast = _
      exact List.dropLast_concat
    · show ((files.map (fun f => ecsUploadFolder pfxs ++ [ '/' ] ++ f)) ++
        [ecsUploadFolder pfxs ++ "/metadata.json".data]).getLast? = _
      exact List.getLast?_concat _
    · show ((files.map (fun f => ecsUploadFolder pfxs ++ [ '/' ] ++ f)) ++
        [ecsUploadFolder pfxs ++ "/metadata.json".data]).dropLast = _
      exact List.dropLast_concat
  · intro pfxs files pre suf hmj hsplit hmeta f hf
    have hxnot : (uploadFolder pfxs ++ "/metadata.json".data) ∉
        files.map (fun g => uploadFolder pfxs ++ [ '/' ] ++ g) := by
      intro hmem
      rcases List.mem_map.mp hmem with ⟨g, hg, heq⟩
      exact metadata_key_not_file_key
        (fun h => hmj (h ▸ hg)) heq
    have hsplit2 : (files.map (fun g => uploadFolder pfxs ++ [ '/' ] ++ g)) ++
        [uploadFolder pfxs ++ "/metadata.json".data] = pre ++ suf := hsplit
    exact mem_prefix_of_last_mem hxnot hsplit2 hmeta _
      (List.mem_map_of_mem _ hf)

/-- C8 witness: the completion-marker reading applied to a concrete upload
of two files, split after the metadata write. -/
theorem metadata_written_last_witness :
    ("result_1/a.json".data : Str) ∈
      ("result_1/a.json".data ::
        ["result_1/b.xlsx".data, "result_1/metadata.json".data]) :=
  metadata_written_last.2 [] ["a.json".data, "b.xlsx".data]
    ("result_1/a.json".data ::
      ["result_1/b.xlsx".data, "result_1/metadata.json".data]) []
    (by decide) (by decide) (by decide) "a.json".data (by decide)

/-
Timestamp fields across writers (C9).
-/

/-- The record the dispatcher writes at submission, carrying created_at. -/
def submittedRec : StatusRecord :=
  { status := "queued".data
    progress := some 0
    message := "Optimization queued, waiting to start".data
    created_at := some "t0".data
    updated_at := some "t0".data
    error := none }

/-- A store holding the submission record of r1. -/
def c9_store : Store :=
  Store.put emptyStore (statusKey "r1".data) submittedRec

/-- C9 counterexample: one ProgressUpdater iteration replaces the stored
document of r1 — which carried created_at t0 — with a document that has no
created_at and no updated_at key, contradicting the claim that every write
preserves created_at and sets updated_at. -/
theorem progress_updater_drops_created_at :
    (c9_store (statusKey "r1".data)).map (fun rec => rec.created_at)
        = some (some "t0".data) ∧
    ((progress_updater_write c9_store "r1".data 42)
        (statusKey "r1".data)).map (fun rec => rec.created_at)
        = some none ∧
    ((progress_updater_write c9_store "r1".data 42)
        (statusKey "r1".data)).map (fun rec => rec.updated_at)
        = some none ∧
    (some (some "t0".data) : Option (Option Str)) ≠ some none := by
  decide

/-- C9 amended: the staged in-memory writer preserves created_at on every
call and refreshes updated_at whenever it writes at all; but the S3 writers
cited by the claim replace the document wholesale with one carrying neither
created_at nor updated_at — the ProgressUpdater loop document has neither
key, and the stop endpoint document (no-running-task outcome) has
neither key. -/
theorem created_at_preservation_varies :
    (∀ (r : StatusRecord) (p : Int) (m now : Str),
        (update_progress r p m now).1.created_at = r.created_at) ∧
    (∀ (r : StatusRecord) (p : Int) (m now : Str),
        (update_progress r p m now).1.updated_at = some now ∨
          (update_progress r p m now).1 = r) ∧
    (∀ p : Int, (progress_updater_record p).created_at = none ∧
        (progress_updater_record p).updated_at = none) ∧
    (∀ (store : Store) (rid : Str),
        ((stop_solver store rid (.tasks [])).1 (statusKey rid)).map
          (fun rec => rec.created_at) = some none ∧
        ((stop_solver store rid (.tasks [])).1 (statusKey rid)).map
          (fun rec => rec.updated_at) = some none) := by
  refine ⟨?_, ?_, ?_, ?_⟩
  · intro r p m now
    by_cases h : r.progress.getD 0 < p <;> simp [update_progress, h]
  · intro r p m now
    by_cases h : r.progress.getD 0 < p
    · left
      simp [update_progress, h]
    · right
      simp [update_progress, h]
  · intro p
    exact ⟨rfl, rfl⟩
  · intro store rid
    constructor <;> simp [stop_solver, Store.put, stopNoTaskRecord]

/-
Listing filter versus allocation scan (C10).
-/

/-- A legacy-cased folder, excluded from the listing but counted by the
lambda_handler allocation scan. -/
def legacyFolder : S3Folder :=
  { name := "Result_5".data, metadata := some demoMeta, files := [] }

/-- The runs/ system prefix as a top-level folder. -/
def runsFolder : S3Folder :=
  { name := "runs".data, metadata := none, files := [] }

/-- Building a listing entry preserves the folder name. -/
theorem folderEntry_name (now : Str) (f : S3Folder) :
    (folderEntry now f).name = f.name := by
  cases hmd : f.metadata <;> simp [folderEntry, hmd]

/-- C10: every entry of the listing has the lowercase result_ prefix (first
conjunct); on a concrete store the legacy Result_5 folder and the runs
prefix never appear in the listing (second conjunct), even though the
lambda_handler allocation scan counts the legacy folder when computing the
next result number (third conjunct). -/
theorem listing_excludes_nonresult_folders :
    (∀ (now : Str) (folders : List S3Folder),
        (list_result_folders now folders).all
          (fun en => "result_".data.isPrefixOf en.name) = true) ∧
    ((list_result_folders "t2".data
        [legacyFolder, runsFolder, folderResult2]).map (fun en => en.name)
      = ["result_2".data]) ∧
    (get_next_result_number ["Result_5/".data, "runs/".data] = 6) := by
  refine ⟨?_, by decide, by decide⟩
  intro now folders
  rw [List.all_eq_true]
  intro en hen
  have hen2 : en ∈ (folders.filter
      (fun g => "result_".data.isPrefixOf g.name)).map (folderEntry now) :=
    ((List.perm_insertionSort _ _).mem_iff).mp hen
  rcases List.mem_map.mp hen2 with ⟨f, hf, rfl⟩
  have hp := (List.mem_filter.mp hf).2
  rw [folderEntry_name]
  exact hp


end Sched
